import Mathlib

/-!
# Verification of the rebor-qo calculation scripts

A shallow embedding of the calculation and validation routines of the
`rebor-qo` repository (four-wave-mixing detuning, ring-resonator damping,
spectral pump response, and the calculator template), together with
theorems settling the specification claims about them.

Modelling conventions:
* Machine floats are modelled by `ℚ` (all claim inputs and outputs are
  exactly representable); complex floats by `CQ`, pairs of rationals.
* A numpy value that is either a scalar or a one-dimensional array is
  modelled by `NArr`; numpy elementwise broadcasting of two such values
  is `bcast2`, returning `none` exactly when numpy would raise its
  shape-mismatch `ValueError` (for 1-d arrays: lengths must be equal or
  one of them must be 1, a scalar combines with anything).
* Division on `ℚ` is total (`x / 0 = 0`), so theorems about code paths
  that numpy would fill with `inf`/`nan` carry the hypothesis that the
  divisor is nonzero, mirroring the claims.
* Raising an exception is modelled by returning an error value; the
  distinct exception classes are distinct constructors.
-/

set_option autoImplicit false

universe u v w

variable {α : Type u} {β : Type v} {γ : Type w}

/-- Complex numbers with rational parts: the exact-arithmetic model of the
complex floats used by `CCqo103_spectral_pump`. -/
structure CQ where
  re : ℚ
  im : ℚ
deriving DecidableEq, Repr

instance : Inhabited CQ := ⟨⟨0, 0⟩⟩

def CQ.zero : CQ := ⟨0, 0⟩

/-- The imaginary unit `1j`. -/
def CQ.I : CQ := ⟨0, 1⟩

def CQ.add (z w : CQ) : CQ := ⟨z.re + w.re, z.im + w.im⟩

def CQ.neg (z : CQ) : CQ := ⟨-z.re, -z.im⟩

def CQ.mul (z w : CQ) : CQ := ⟨z.re * w.re - z.im * w.im, z.re * w.im + z.im * w.re⟩

/-- Complex conjugation, `np.conj`. -/
def CQ.conj (z : CQ) : CQ := ⟨z.re, -z.im⟩

/-- Complex division via the conjugate; total (zero denominator gives `0`),
the guarded claims never reach that case. -/
def CQ.div (z w : CQ) : CQ :=
  let n : ℚ := w.re * w.re + w.im * w.im
  ⟨(z.re * w.re + z.im * w.im) / n, (z.im * w.re - z.re * w.im) / n⟩

/-- Embed a real (rational) as a complex value. -/
def CQ.ofRat (q : ℚ) : CQ := ⟨q, 0⟩

/-- A numpy scalar (0-d) or one-dimensional array. -/
inductive NArr (α : Type u) : Type u where
  | scalar : α → NArr α
  | arr : List α → NArr α
deriving DecidableEq, Repr

namespace NArr

/-- Elementwise map, as numpy ufuncs act on a single operand. -/
def map (f : α → β) : NArr α → NArr β
  | .scalar x => .scalar (f x)
  | .arr l => .arr (l.map f)

/-- The numpy shape: `none` for a scalar, the length for a 1-d array. -/
def nshape : NArr α → Option Nat
  | .scalar _ => none
  | .arr l => some l.length

/-- Virtual length: how many elementwise slots the value occupies
(a scalar occupies one). -/
def vlen : NArr α → Nat
  | .scalar _ => 1
  | .arr l => l.length

/-- Broadcast-aware element access: a scalar and a length-one array
yield their single element at every index. -/
def bget [Inhabited α] : NArr α → Nat → α
  | .scalar x, _ => x
  | .arr l, i => if l.length = 1 then l.headD default else l.getD i default

/-- The elements of the value as a list (a scalar has one element). -/
def elemsList : NArr α → List α
  | .scalar x => [x]
  | .arr l => l

end NArr

/-- Broadcasting of two 1-d lists: equal lengths combine elementwise,
a length-one list is stretched, anything else is a numpy shape error. -/
def blists [Inhabited α] [Inhabited β] (f : α → β → γ) (xs : List α) (ys : List β) :
    Option (List γ) :=
  if xs.length = ys.length then some (List.zipWith f xs ys)
  else if xs.length = 1 then some (ys.map (fun y => f (xs.headD default) y))
  else if ys.length = 1 then some (xs.map (fun x => f x (ys.headD default)))
  else none

/-- Numpy elementwise combination of two scalar-or-1-d values under
broadcasting; `none` models the broadcast `ValueError`. -/
def bcast2 [Inhabited α] [Inhabited β] (f : α → β → γ) :
    NArr α → NArr β → Option (NArr γ)
  | .scalar x, .scalar y => some (.scalar (f x y))
  | .scalar x, .arr ys => some (.arr (ys.map (fun y => f x y)))
  | .arr xs, .scalar y => some (.arr (xs.map (fun x => f x y)))
  | .arr xs, .arr ys => (blists f xs ys).map NArr.arr

/-- Result shape of broadcasting two shapes; `none` when incompatible. -/
def bshape : Option Nat → Option Nat → Option (Option Nat)
  | none, none => some none
  | none, some n => some (some n)
  | some m, none => some (some m)
  | some m, some n =>
    if m = n then some (some m)
    else if m = 1 then some (some n)
    else if n = 1 then some (some m)
    else none

/-- `np.sum`: a scalar sums to itself, an array to the sum of its
elements. -/
def npSum : NArr ℚ → ℚ
  | .scalar x => x
  | .arr l => l.sum

/-! ## CCqo101_FWM_detuning: the detuning calculator

Embeds `calcqo101_FWM_detuning(pump1, signal, pump2=None, idler=None)`;
the optional arguments are `Option ℚ`, defaulted inside exactly as the
source defaults `None`. -/

def calcqo101_FWM_detuning (pump1 signal : ℚ) (pump2 idler : Option ℚ) : ℚ :=
  let p2 : ℚ := match pump2 with | none => pump1 | some x => x
  let idl : ℚ := match idler with | none => signal | some x => x
  (signal + idl) - (pump1 + p2)

/-! ## CCID_template: the template calculator

`calcID_template` multiplies the input fraction by pi and then applies
`np.tan`, `np.sin` or `np.log` depending on how the fraction compares to
0.5.  The transcendental functions and the constant pi are abstract
parameters of the embedding (the code treats them as black boxes); the
branching structure and the product are the content. -/

def calcID_template (tan sin log : ℚ → ℚ) (pi : ℚ) (chgVar : ℚ) : List ℚ :=
  let intrmdB := chgVar * pi
  let finC :=
    if chgVar > 1/2 then tan intrmdB
    else if chgVar < 1/2 then sin intrmdB
    else log intrmdB
  [finC, intrmdB]

/-! ## CCqo102_ring_damping: the ring damping calculator

`calc_ring_damping` converts its inputs to arrays, computes the elementwise
path losses `np.absolute(couplings)**2 / (2.0 * velocities)` and sums them.
`none` models the numpy broadcast `ValueError`. -/

def calc_ring_damping (couplings velocities : NArr ℚ) : Option (ℚ × NArr ℚ) :=
  let absSq := (couplings.map (fun x => |x|)).map (fun x => x ^ 2)
  (bcast2 (fun a b => a * b) (NArr.scalar (2 : ℚ)) velocities).bind fun twoV =>
    (bcast2 (fun a b => a / b) absSq twoV).map fun path_losses =>
      (npSum path_losses, path_losses)

/-! ## CCqo103_spectral_pump: the spectral pump calculator -/

/-- `np.any(x == 0)` over a scalar or 1-d complex value. -/
def NArr.anyZero : NArr CQ → Bool
  | .scalar z => z == CQ.zero
  | .arr l => l.any (fun z => z == CQ.zero)

/-- The denominator `-1j*wavevec*velocities + damping` of the ring
response, built left to right exactly as the source expression. -/
def denomOf (k v G : NArr CQ) : Option (NArr CQ) :=
  (bcast2 CQ.mul (NArr.scalar (CQ.neg CQ.I)) k).bind fun t1 =>
    (bcast2 CQ.mul t1 v).bind fun t2 =>
      bcast2 CQ.add t2 G

/-- Exception classes `calcqo103_spectral_pump` can raise: the numpy
broadcast mismatch, and the explicit zero-denominator check (both are
`ValueError` in Python, kept distinct here). -/
inductive CalcErr where
  | broadcastMismatch
  | divisionByZero
deriving DecidableEq, Repr

/-- `calcqo103_spectral_pump`: checks the denominator for zeros before any
division, then computes the ring response `-1j*np.conj(g)/denom` and the
in-ring pump `rr * a`. -/
def calcqo103_spectral_pump
    (wavevec couplings_pump velocities_pump ring_damping_pump pump_input : NArr CQ) :
    Except CalcErr (NArr CQ × NArr CQ) :=
  match denomOf wavevec velocities_pump ring_damping_pump with
  | none => .error .broadcastMismatch
  | some denom =>
    if denom.anyZero then .error .divisionByZero
    else
      match (bcast2 CQ.mul (NArr.scalar (CQ.neg CQ.I)) (couplings_pump.map CQ.conj)).bind
          (fun numer => bcast2 CQ.div numer denom) with
      | none => .error .broadcastMismatch
      | some rr =>
        match bcast2 CQ.mul rr pump_input with
        | none => .error .broadcastMismatch
        | some b => .ok (b, rr)

/-! ## Validator flags and outcomes (shared shape)

Each validator accumulates error and warning flags with message lists and
then raises.  A message is modelled as the list of violation records it
reports, in order. -/

structure VFlags (μ : Type u) : Type u where
  err : Bool
  eMsg : List μ
  wrn : Bool
  wMsg : List μ
deriving DecidableEq, Repr

/-- Result of a validator call: returning normally, raising `ValueError`,
raising `RuntimeWarning`, or letting an unclassified `TypeError` or
`AttributeError` escape (possible only in the ring-damping validator). -/
inductive VOutcome (μ : Type u) : Type u where
  | ok
  | valueError (msg : List μ)
  | runtimeWarning (msg : List μ)
  | typeError
  | attributeError
deriving DecidableEq, Repr

/-! ## CCqo103_spectral_pump validator -/

/-- Numpy dtype kinds: the five numeric kinds and a non-numeric rest. -/
inductive DKind where
  | b | i | u | f | c | other
deriving DecidableEq, Repr

/-- The parameters `validateParameters` of the spectral pump checks. -/
inductive PName103 where
  | wavevec | couplings | velocities | damping | pumpInput
deriving DecidableEq, Repr

/-- Violation records produced by `valArrayTests`. -/
inductive Viol103 where
  | nonNumeric (p : PName103)
  | multiDim (p : PName103)
  | negative (p : PName103)
  | complexNotReal (p : PName103)
deriving DecidableEq, Repr

/-- A numpy array as the spectral-pump validator sees it: its dtype kind,
number of dimensions, and (flattened) elements. -/
structure NDArr where
  kind : DKind
  ndim : Nat
  elems : List CQ
deriving DecidableEq, Repr

/-- Era-accurate numpy `< 0` on a complex element: lexicographic on
(real, imaginary). For real-kind arrays this is the real comparison. -/
def CQ.ltZero (z : CQ) : Bool :=
  decide (z.re < 0) || (z.re == 0 && decide (z.im < 0))

def numericKinds : List DKind := [.b, .i, .u, .f, .c]

/-- `valArrayTests(a, name, errorNegative, warnComplex)`: the three checks
(numeric kind, one-dimensionality, non-negativity) exactly as the source
nests them; the complex warning is inside the non-numeric branch. -/
def valArrayTests (a : NDArr) (name : PName103) (errorNegative warnComplex : Bool) :
    VFlags Viol103 :=
  let s0 : VFlags Viol103 := ⟨false, [], false, []⟩
  let s1 :=
    if a.kind ∉ numericKinds then
      if a.kind = DKind.c ∧ warnComplex = true then
        ⟨true, s0.eMsg ++ [.nonNumeric name], true, s0.wMsg ++ [.complexNotReal name]⟩
      else ⟨true, s0.eMsg ++ [.nonNumeric name], s0.wrn, s0.wMsg⟩
    else s0
  let s2 :=
    if a.ndim > 1 then ⟨true, s1.eMsg ++ [.multiDim name], s1.wrn, s1.wMsg⟩ else s1
  let s3 :=
    if a.elems.any CQ.ltZero && errorNegative then
      ⟨true, s2.eMsg ++ [.negative name], s2.wrn, s2.wMsg⟩
    else s2
  s3

/-- The checking phase of the spectral-pump `validateParameters`: each
present parameter REPLACES the flag tuple (the source assigns
`err, eMsg, wrn, wMsg = valArrayTests(...)` instead of accumulating). -/
def checks103 (wavevec couplings velocities damping pumpInput : Option NDArr) :
    VFlags Viol103 :=
  let s0 : VFlags Viol103 := ⟨false, [], false, []⟩
  let s1 := match wavevec with
    | none => s0
    | some a => valArrayTests a .wavevec false true
  let s2 := match couplings with
    | none => s1
    | some a => valArrayTests a .couplings true false
  let s3 := match velocities with
    | none => s2
    | some a => valArrayTests a .velocities true true
  let s4 := match damping with
    | none => s3
    | some a => valArrayTests a .damping true true
  let s5 := match pumpInput with
    | none => s4
    | some a => valArrayTests a .pumpInput true false
  s5

/-- The spectral-pump `validateParameters`: note the source raises the
warning FIRST (`if wrn: raise RuntimeWarning` before `if err: raise
ValueError`). -/
def validateParameters103 (wavevec couplings velocities damping pumpInput : Option NDArr) :
    VOutcome Viol103 :=
  let f := checks103 wavevec couplings velocities damping pumpInput
  if f.wrn then .runtimeWarning f.wMsg
  else if f.err then .valueError f.eMsg
  else .ok

/-! ## CCqo102_ring_damping validator

Python values as the ring-damping validator receives them: scalars (int or
float) or a list of floats.  Truthiness, list-wrapping and `np.asarray`
conversion happen only inside the `if _couplings:` blocks, so a falsy
value stays raw, which matters in the broadcast try-check. -/

inductive PyVal where
  | pint (n : ℤ)
  | pfloat (q : ℚ)
  | plist (l : List ℚ)
deriving DecidableEq, Repr

/-- Python truthiness of the modelled values. -/
def PyVal.truthy : PyVal → Bool
  | .pint n => n != 0
  | .pfloat q => q != 0
  | .plist l => !l.isEmpty

/-- `np.asarray` after the non-list wrap `[_x]`. -/
def PyVal.toArr : PyVal → List ℚ
  | .pint n => [(n : ℚ)]
  | .pfloat q => [q]
  | .plist l => l

/-- The state of a parameter variable after its checking block: absent,
still the raw Python value (falsy, conversion skipped), or a converted
1-d ndarray. -/
inductive PState where
  | noneS
  | raw (v : PyVal)
  | nd (l : List ℚ)
deriving DecidableEq, Repr

/-- Violation records of the ring-damping validator; the negative-value
records carry the offending indices as `np.where` reports them. -/
inductive V102 where
  | negCouplings (idxs : List Nat)
  | negVelocities (idxs : List Nat)
  | shapeMismatch
deriving DecidableEq, Repr

/-- Indices of negative elements, as `np.where(a < 0)` lists them. -/
def negIdxs (l : List ℚ) : List Nat :=
  (l.enum.filter (fun p => decide (p.2 < 0))).map Prod.fst

/-- One parameter block of the ring-damping validator: skipped when the
value is absent or falsy; a truthy value is converted and range-checked. -/
def phaseParam (x : Option PyVal) (mk : List Nat → V102) : PState × List V102 :=
  match x with
  | none => (.noneS, [])
  | some v =>
    if v.truthy then
      let a := v.toArr
      if a.any (fun q => decide (q < 0)) then (.nd a, [mk (negIdxs a)])
      else (.nd a, [])
    else (.raw v, [])

/-- Result of the broadcast try-check `_couplings * _velocities`. -/
inductive ShapeRes where
  | skip | okS | shapeErr | typeErr | attrErr
deriving DecidableEq, Repr

/-- Numpy 1-d broadcast compatibility of two lengths. -/
def compatLen (m n : Nat) : Bool := m == n || m == 1 || n == 1

/-- Python-2 semantics of `x * y` on two raw (unconverted) values: numeric
products and `int`-by-sequence repetition succeed, sequence-by-`float`
and sequence-by-sequence raise `TypeError`. -/
def rawProd : PyVal → PyVal → ShapeRes
  | .pint _, _ => .okS
  | .pfloat _, .pint _ => .okS
  | .pfloat _, .pfloat _ => .okS
  | .pfloat _, .plist _ => .typeErr
  | .plist _, .pint _ => .okS
  | .plist _, .pfloat _ => .typeErr
  | .plist _, .plist _ => .typeErr

/-- The broadcast try-check: runs when both parameters are non-None.  A
numpy `ValueError` is caught, but the handler formats `.shape` of both
variables, which raises `AttributeError` when the incompatible side is a
raw list; a raw-product `TypeError` escapes uncaught. -/
def shapePhase : PState → PState → ShapeRes
  | .noneS, _ => .skip
  | _, .noneS => .skip
  | .nd a, .nd b => if compatLen a.length b.length then .okS else .shapeErr
  | .nd a, .raw w =>
    match w with
    | .plist l => if compatLen a.length l.length then .okS else .attrErr
    | _ => .okS
  | .raw v, .nd b =>
    match v with
    | .plist l => if compatLen l.length b.length then .okS else .attrErr
    | _ => .okS
  | .raw v, .raw w => rawProd v w

/-- Exceptions escaping the checking phase itself. -/
inductive Esc where
  | typeError | attributeError
deriving DecidableEq, Repr

/-- The checking phase of the ring-damping `validateParameters`: the two
parameter blocks, then the broadcast try-check, accumulating violations
in order. -/
def checks102 (couplings velocities : Option PyVal) : Except Esc (VFlags V102) :=
  let cp := phaseParam couplings V102.negCouplings
  let vp := phaseParam velocities V102.negVelocities
  let e := cp.2 ++ vp.2
  match shapePhase cp.1 vp.1 with
  | .typeErr => .error .typeError
  | .attrErr => .error .attributeError
  | .shapeErr => .ok ⟨true, e ++ [V102.shapeMismatch], false, []⟩
  | _ => .ok ⟨!e.isEmpty, e, false, []⟩

/-- The raise logic of the ring-damping validator: error-and-warning wins
as `ValueError` with both messages, then error, then warning. -/
def dispatch102 (f : VFlags V102) : VOutcome V102 :=
  if f.err && f.wrn then .valueError (f.wMsg ++ f.eMsg)
  else if f.err then .valueError f.eMsg
  else if f.wrn then .runtimeWarning f.wMsg
  else .ok

/-- The ring-damping `validateParameters`. -/
def validateParameters102 (couplings velocities : Option PyVal) : VOutcome V102 :=
  match checks102 couplings velocities with
  | .error .typeError => .typeError
  | .error .attributeError => .attributeError
  | .ok f => dispatch102 f

/-! ## CCqo101_FWM_detuning validator -/

inductive P101 where
  | pump1 | pump2 | signal | idler
deriving DecidableEq, Repr

inductive V101 where
  | rangeNeg (p : P101)
deriving DecidableEq, Repr

/-- One `if v and (v < 0)` range check: skipped for absent or falsy
(zero) values. -/
def check101 (p : P101) (x : Option ℚ) : List V101 :=
  match x with
  | none => []
  | some q => if q ≠ 0 ∧ q < 0 then [.rangeNeg p] else []

/-- The checking phase of the detuning validator, in its fixed
pump1, pump2, signal, idler order. -/
def checks101 (pump1 pump2 signal idler : Option ℚ) : VFlags V101 :=
  let e := check101 .pump1 pump1 ++ check101 .pump2 pump2 ++
    check101 .signal signal ++ check101 .idler idler
  ⟨!e.isEmpty, e, false, []⟩

/-- The raise logic of the detuning validator: error-and-warning wins as
`ValueError` carrying `eMsg + wMsg`, then warning, then error. -/
def dispatch101 (f : VFlags V101) : VOutcome V101 :=
  if f.err && f.wrn then .valueError (f.eMsg ++ f.wMsg)
  else if f.wrn then .runtimeWarning f.wMsg
  else if f.err then .valueError f.eMsg
  else .ok

/-- The detuning `validateParameters`. -/
def validateParameters101 (pump1 pump2 signal idler : Option ℚ) : VOutcome V101 :=
  dispatch101 (checks101 pump1 pump2 signal idler)

/-! ## Helper notions for element access under broadcasting -/

/-- Broadcast-aware element access on a list (length-one lists stretch). -/
def lget [Inhabited α] (l : List α) (i : Nat) : α :=
  if l.length = 1 then l.headD default else l.getD i default

/-- C4: `calcqo101_FWM_detuning` returns `(signal + idler) - (pump1 + pump2)`
with `pump2` defaulting to `pump1` and `idler` defaulting to `signal`; it is
a total function raising no error. -/
theorem calcqo101_FWM_detuning_spec (pump1 signal : ℚ) (pump2 idler : Option ℚ) :
    calcqo101_FWM_detuning pump1 signal pump2 idler =
      (signal + idler.getD signal) - (pump1 + pump2.getD pump1) := by
  cases pump2 <;> cases idler <;> rfl

/-- C5 counterexample: the spec's two test equalities are false on the code:
`detuning(pump1=100, signal=110)` is `(110+110)-(100+100) = 20`, not `10`,
and `detuning(100, 110, pump2=230, idler=250)` is `(110+250)-(100+230) = 30`,
not `70`. -/
theorem calcqo101_FWM_detuning_examples_false :
    calcqo101_FWM_detuning 100 110 none none ≠ 10 ∧
    calcqo101_FWM_detuning 100 110 (some 230) (some 250) ≠ 70 := by
  constructor <;> norm_num [calcqo101_FWM_detuning]

/-- C5 amended: the detuning calculator's actual values at the spec's two
test inputs: `detuning(pump1=100, signal=110) = 20` (idler and pump2 default
to signal and pump1) and `detuning(100, 110, pump2=230, idler=250) = 30`. -/
theorem calcqo101_FWM_detuning_examples :
    calcqo101_FWM_detuning 100 110 none none = 20 ∧
    calcqo101_FWM_detuning 100 110 (some 230) (some 250) = 30 := by
  constructor <;> norm_num [calcqo101_FWM_detuning]

/-! ## Generic lemmas about broadcasting -/

theorem headD_eq_getD_zero [Inhabited α] (l : List α) :
    l.headD default = l.getD 0 default := by
  cases l <;> rfl

theorem lget_eq_getD [Inhabited α] (l : List α) (i : Nat) (h : i < l.length) :
    lget l i = l.getD i default := by
  unfold lget
  split_ifs with h1
  · have : i = 0 := by omega
    subst this
    exact headD_eq_getD_zero l
  · rfl

theorem lget_len1 [Inhabited α] (l : List α) (i : Nat) (h : l.length = 1) :
    lget l i = l.headD default := by
  unfold lget
  rw [if_pos h]

theorem getD_zipWith [Inhabited α] [Inhabited β] (f : α → β → γ) (d : γ) :
    ∀ (xs : List α) (ys : List β) (i : Nat), i < xs.length → i < ys.length →
      (List.zipWith f xs ys).getD i d = f (xs.getD i default) (ys.getD i default)
  | [], _, i, hx, _ => absurd hx (by simp)
  | _ :: _, [], _, _, hy => absurd hy (by simp)
  | _ :: _, _ :: _, 0, _, _ => rfl
  | _ :: xs, _ :: ys, i + 1, hx, hy =>
    getD_zipWith f d xs ys i (by simpa using hx) (by simpa using hy)

theorem getD_map [Inhabited α] [Inhabited β] (f : α → β) :
    ∀ (l : List α) (i : Nat), i < l.length →
      (l.map f).getD i default = f (l.getD i default)
  | [], i, h => absurd h (by simp)
  | _ :: _, 0, _ => rfl
  | _ :: l, i + 1, h => getD_map f l i (by simpa using h)

theorem headD_map [Inhabited α] [Inhabited β] (f : α → β) (l : List α) (h : l ≠ []) :
    (l.map f).headD default = f (l.headD default) := by
  cases l with
  | nil => exact absurd rfl h
  | cons x l => rfl

theorem lget_map [Inhabited α] [Inhabited β] (f : α → β) (l : List α) (i : Nat)
    (h : i < l.length ∨ l.length = 1) :
    lget (l.map f) i = f (lget l i) := by
  unfold lget
  simp only [List.length_map]
  split_ifs with h1
  · exact headD_map f l (by intro he; rw [he] at h1; simp at h1)
  · have hi : i < l.length := by rcases h with h | h; exact h; exact absurd h h1
    exact getD_map f l i hi

theorem blists_compat [Inhabited α] [Inhabited β] (f : α → β → γ)
    (xs : List α) (ys : List β) (r : List γ) (h : blists f xs ys = some r) :
    xs.length = ys.length ∨ xs.length = 1 ∨ ys.length = 1 := by
  unfold blists at h
  split_ifs at h with h1 h2 h3
  · exact Or.inl h1
  · exact Or.inr (Or.inl h2)
  · exact Or.inr (Or.inr h3)

theorem blists_length [Inhabited α] [Inhabited β] (f : α → β → γ)
    (xs : List α) (ys : List β) (r : List γ) (h : blists f xs ys = some r) :
    r.length = if xs.length = 1 then ys.length else xs.length := by
  unfold blists at h
  split_ifs at h with h1 h2 h3 <;>
    (obtain rfl := Option.some.inj h
     simp only [List.length_zipWith, List.length_map]
     split_ifs <;> omega)

theorem blists_lget [Inhabited α] [Inhabited β] [Inhabited γ] (f : α → β → γ)
    (xs : List α) (ys : List β) (r : List γ) (h : blists f xs ys = some r) :
    ∀ i, i < r.length ∨ r.length = 1 → lget r i = f (lget xs i) (lget ys i) := by
  have hlen := blists_length f xs ys r h
  have haux : ∀ i, i < r.length → lget r i = f (lget xs i) (lget ys i) := by
    intro i hi
    unfold blists at h
    split_ifs at h with h1 h2 h3
    · obtain rfl := Option.some.inj h
      have hb : i < xs.length ∧ i < ys.length := by
        simp only [List.length_zipWith] at hi; omega
      rw [lget_eq_getD _ i hi, lget_eq_getD xs i hb.1, lget_eq_getD ys i hb.2,
        getD_zipWith f default xs ys i hb.1 hb.2]
    · obtain rfl := Option.some.inj h
      simp only [List.length_map] at hi
      rw [lget_map _ ys i (Or.inl hi), lget_len1 xs i h2]
    · obtain rfl := Option.some.inj h
      simp only [List.length_map] at hi
      rw [lget_map _ xs i (Or.inl hi), lget_len1 ys i h3]
  intro i hi
  rcases hi with hi | h1
  · exact haux i hi
  · have hx1 : xs.length = 1 := by
      by_cases hx : xs.length = 1
      · exact hx
      · rw [if_neg hx] at hlen; omega
    have hy1 : ys.length = 1 := by rw [if_pos hx1] at hlen; omega
    have h0 := haux 0 (by omega)
    rw [lget_len1 r i h1, lget_len1 xs i hx1, lget_len1 ys i hy1]
    rw [lget_len1 r 0 h1, lget_len1 xs 0 hx1, lget_len1 ys 0 hy1] at h0
    exact h0

theorem bget_arr [Inhabited α] (l : List α) (i : Nat) :
    (NArr.arr l).bget i = lget l i := rfl

theorem nshape_map (f : α → β) (a : NArr α) : (a.map f).nshape = a.nshape := by
  cases a <;> simp [NArr.map, NArr.nshape]

theorem vlen_map (f : α → β) (a : NArr α) : (a.map f).vlen = a.vlen := by
  cases a <;> simp [NArr.map, NArr.vlen]

theorem vlen_eq_of_nshape (a : NArr α) (n : Nat) (h : a.nshape = some n) :
    a.vlen = n := by
  cases a with
  | scalar x => simp [NArr.nshape] at h
  | arr l => simpa [NArr.nshape, NArr.vlen] using h

theorem bget_map [Inhabited α] [Inhabited β] (f : α → β) (a : NArr α) (i : Nat)
    (h : i < a.vlen ∨ a.vlen = 1) : (a.map f).bget i = f (a.bget i) := by
  cases a with
  | scalar x => rfl
  | arr l => exact lget_map f l i h

theorem bshape_none_left (s : Option Nat) : bshape none s = some s := by
  cases s <;> rfl

theorem bcast2_shape [Inhabited α] [Inhabited β] (f : α → β → γ)
    (a : NArr α) (b : NArr β) (r : NArr γ) (h : bcast2 f a b = some r) :
    bshape a.nshape b.nshape = some r.nshape := by
  cases a with
  | scalar x =>
    cases b with
    | scalar y => obtain rfl := Option.some.inj h; rfl
    | arr ys =>
      obtain rfl := Option.some.inj h
      simp [NArr.nshape, bshape]
  | arr xs =>
    cases b with
    | scalar y =>
      obtain rfl := Option.some.inj h
      simp [NArr.nshape, bshape]
    | arr ys =>
      simp only [bcast2, Option.map_eq_some'] at h
      obtain ⟨rl, hbl, rfl⟩ := h
      have hlen := blists_length f xs ys rl hbl
      have hcompat := blists_compat f xs ys rl hbl
      simp only [NArr.nshape, bshape]
      split_ifs with e1 e2 e3
      · have hx : xs.length = rl.length := by split at hlen <;> omega
        rw [hx]
      · have hy : ys.length = rl.length := by split at hlen <;> omega
        rw [hy]
      · have hx : xs.length = rl.length := by split at hlen <;> omega
        rw [hx]
      · rcases hcompat with e | e | e
        · exact absurd e e1
        · exact absurd e e2
        · exact absurd e e3

theorem bcast2_of_shape [Inhabited α] [Inhabited β] (f : α → β → γ)
    (a : NArr α) (b : NArr β) (s : Option Nat)
    (h : bshape a.nshape b.nshape = some s) :
    ∃ r, bcast2 f a b = some r ∧ r.nshape = s := by
  cases a with
  | scalar x =>
    cases b with
    | scalar y =>
      refine ⟨.scalar (f x y), rfl, ?_⟩
      simp only [NArr.nshape, bshape, Option.some.injEq] at h ⊢
      exact h
    | arr ys =>
      refine ⟨.arr (ys.map (fun y => f x y)), rfl, ?_⟩
      simp only [NArr.nshape, bshape, Option.some.injEq, List.length_map] at h ⊢
      exact h
  | arr xs =>
    cases b with
    | scalar y =>
      refine ⟨.arr (xs.map (fun z => f z y)), rfl, ?_⟩
      simp only [NArr.nshape, bshape, Option.some.injEq, List.length_map] at h ⊢
      exact h
    | arr ys =>
      simp only [NArr.nshape, bshape, Option.some.injEq] at h
      split_ifs at h with e1 e2 e3
      · obtain rfl := Option.some.inj h
        refine ⟨.arr (List.zipWith f xs ys), ?_, ?_⟩
        · simp only [bcast2, blists, if_pos e1, Option.map_some']
        · simp only [NArr.nshape, List.length_zipWith, Option.some.injEq]
          omega
      · obtain rfl := Option.some.inj h
        refine ⟨.arr (ys.map (fun y => f (xs.headD default) y)), ?_, ?_⟩
        · simp only [bcast2, blists, if_neg e1, if_pos e2, Option.map_some']
        · simp only [NArr.nshape, List.length_map]
      · obtain rfl := Option.some.inj h
        refine ⟨.arr (xs.map (fun z => f z (ys.headD default))), ?_, ?_⟩
        · simp only [bcast2, blists, if_neg e1, if_neg e2, if_pos e3, Option.map_some']
        · simp only [NArr.nshape, List.length_map]

theorem bcast2_bget [Inhabited α] [Inhabited β] [Inhabited γ] (f : α → β → γ)
    (a : NArr α) (b : NArr β) (r : NArr γ) (h : bcast2 f a b = some r)
    (i : Nat) (hi : i < r.vlen ∨ r.vlen = 1) :
    r.bget i = f (a.bget i) (b.bget i) := by
  cases a with
  | scalar x =>
    cases b with
    | scalar y => obtain rfl := Option.some.inj h; rfl
    | arr ys =>
      obtain rfl := Option.some.inj h
      have hb : i < ys.length ∨ ys.length = 1 := by
        simpa [NArr.vlen] using hi
      exact lget_map (fun y => f x y) ys i hb
  | arr xs =>
    cases b with
    | scalar y =>
      obtain rfl := Option.some.inj h
      have hb : i < xs.length ∨ xs.length = 1 := by
        simpa [NArr.vlen] using hi
      exact lget_map (fun z => f z y) xs i hb
    | arr ys =>
      simp only [bcast2, Option.map_eq_some'] at h
      obtain ⟨rl, hbl, rfl⟩ := h
      have hb : i < rl.length ∨ rl.length = 1 := by
        simpa [NArr.vlen] using hi
      exact blists_lget f xs ys rl hbl i hb

theorem bcast2_operand [Inhabited α] [Inhabited β] (f : α → β → γ)
    (a : NArr α) (b : NArr β) (r : NArr γ) (h : bcast2 f a b = some r)
    (i : Nat) (hi : i < r.vlen ∨ r.vlen = 1) :
    (i < a.vlen ∨ a.vlen = 1) ∧ (i < b.vlen ∨ b.vlen = 1) := by
  cases a with
  | scalar x =>
    cases b with
    | scalar y => exact ⟨Or.inr rfl, Or.inr rfl⟩
    | arr ys =>
      obtain rfl := Option.some.inj h
      simp only [NArr.vlen, List.length_map] at hi
      exact ⟨Or.inr rfl, hi⟩
  | arr xs =>
    cases b with
    | scalar y =>
      obtain rfl := Option.some.inj h
      simp only [NArr.vlen, List.length_map] at hi
      exact ⟨hi, Or.inr rfl⟩
    | arr ys =>
      simp only [bcast2, Option.map_eq_some'] at h
      obtain ⟨rl, hbl, rfl⟩ := h
      have hcompat := blists_compat f xs ys rl hbl
      have hlen := blists_length f xs ys rl hbl
      simp only [NArr.vlen] at hi ⊢
      split at hlen <;> rcases hcompat with e | e | e <;> rcases hi with hi | hi <;> omega

/-! ## Claim C1: the ring damping calculation -/

/-- C1: for broadcast-compatible inputs with no zero velocity,
`calc_ring_damping` returns the pair `(damping, path_losses)` where
`path_losses` is elementwise `|coupling|^2 / (2 * velocity)` under
broadcasting and `damping` is the sum of the path losses; and the three
spec examples hold exactly. -/
theorem calc_ring_damping_spec :
    (∀ (couplings velocities : NArr ℚ) (s : Option Nat),
      bshape couplings.nshape velocities.nshape = some s →
      (∀ q ∈ velocities.elemsList, q ≠ 0) →
      ∃ (damping : ℚ) (path_losses : NArr ℚ),
        calc_ring_damping couplings velocities = some (damping, path_losses) ∧
        path_losses.nshape = s ∧
        damping = npSum path_losses ∧
        ∀ i, i < path_losses.vlen →
          path_losses.bget i = |couplings.bget i| ^ 2 / (2 * velocities.bget i)) ∧
    calc_ring_damping (.arr [12, 20]) (.arr [3, 4]) = some (74, .arr [24, 50]) ∧
    calc_ring_damping (.scalar 12) (.scalar 3) = some (24, .scalar 24) ∧
    calc_ring_damping (.arr [12, 20]) (.scalar 2) = some (136, .arr [36, 100]) := by
  refine ⟨?_, ?_, ?_, ?_⟩
  · intro c v s hs hv
    obtain ⟨twoV, h2v, h2vs⟩ :=
      bcast2_of_shape (fun a b => a * b) (.scalar (2 : ℚ)) v v.nshape (bshape_none_left _)
    obtain ⟨pl, hpl, hpls⟩ := bcast2_of_shape (fun a b => a / b)
      ((c.map (fun x => |x|)).map (fun x => x ^ 2)) twoV s
      (by rw [nshape_map, nshape_map, h2vs]; exact hs)
    refine ⟨npSum pl, pl, ?_, hpls, rfl, ?_⟩
    · unfold calc_ring_damping
      rw [h2v, Option.some_bind, hpl, Option.map_some']
    · intro i hi
      have hop := bcast2_operand _ _ _ _ hpl i (Or.inl hi)
      have hget := bcast2_bget _ _ _ _ hpl i (Or.inl hi)
      have hc : i < c.vlen ∨ c.vlen = 1 := by
        rw [vlen_map, vlen_map] at hop
        exact hop.1
      have e1 : ((c.map (fun x => |x|)).map (fun x => x ^ 2)).bget i = |c.bget i| ^ 2 := by
        rw [bget_map (fun x => x ^ 2) _ i (by rw [vlen_map]; exact hc),
          bget_map (fun x => |x|) c i hc]
      have e2 : twoV.bget i = 2 * v.bget i := bcast2_bget _ _ _ _ h2v i hop.2
      rw [hget, e1, e2]
  · norm_num [calc_ring_damping, bcast2, blists, NArr.map, npSum]
  · norm_num [calc_ring_damping, bcast2, blists, NArr.map, npSum]
  · norm_num [calc_ring_damping, bcast2, blists, NArr.map, npSum]

/-- Witness for C1: the general clause applied at the first spec example. -/
theorem calc_ring_damping_spec_witness :
    ∃ (damping : ℚ) (path_losses : NArr ℚ),
      calc_ring_damping (.arr [12, 20]) (.arr [3, 4]) = some (damping, path_losses) ∧
      path_losses.nshape = some 2 ∧
      damping = npSum path_losses ∧
      ∀ i, i < path_losses.vlen →
        path_losses.bget i =
          |(NArr.arr [12, 20] : NArr ℚ).bget i| ^ 2 /
            (2 * (NArr.arr [3, 4] : NArr ℚ).bget i) :=
  calc_ring_damping_spec.1 (.arr [12, 20]) (.arr [3, 4]) (some 2)
    (by simp [NArr.nshape, bshape])
    (by intro q hq; simp [NArr.elemsList] at hq; rcases hq with rfl | rfl <;> norm_num)

/-! ## Claims C2 and C3: the spectral pump calculation -/

/-- C2: for broadcast-compatible inputs whose denominator
`d = -i*k*v + G` has no zero element, `calcqo103_spectral_pump` returns
`(pump_ring, ring_response)` with `ring_response = -i*conj(g)/d`
elementwise and `pump_ring = ring_response * a` elementwise; and at the
scalar inputs (1,2,3,4,5) it returns exactly `1.2 - 1.6j` and
`0.24 - 0.32j`. -/
theorem calcqo103_spectral_pump_spec :
    (∀ (k g v G a denom : NArr CQ) (s3 s4 : Option Nat),
      denomOf k v G = some denom →
      denom.anyZero = false →
      bshape g.nshape denom.nshape = some s3 →
      bshape s3 a.nshape = some s4 →
      ∃ (pump_ring ring_response : NArr CQ),
        calcqo103_spectral_pump k g v G a = .ok (pump_ring, ring_response) ∧
        ring_response.nshape = s3 ∧
        pump_ring.nshape = s4 ∧
        (∀ i, i < denom.vlen →
          denom.bget i =
            CQ.add (CQ.mul (CQ.mul (CQ.neg CQ.I) (k.bget i)) (v.bget i)) (G.bget i)) ∧
        (∀ i, i < ring_response.vlen →
          ring_response.bget i =
            CQ.div (CQ.mul (CQ.neg CQ.I) (CQ.conj (g.bget i))) (denom.bget i)) ∧
        (∀ i, i < pump_ring.vlen →
          pump_ring.bget i = CQ.mul (ring_response.bget i) (a.bget i))) ∧
    calcqo103_spectral_pump (.scalar (CQ.ofRat 1)) (.scalar (CQ.ofRat 2))
      (.scalar (CQ.ofRat 3)) (.scalar (CQ.ofRat 4)) (.scalar (CQ.ofRat 5)) =
      .ok (.scalar ⟨6/5, -8/5⟩, .scalar ⟨6/25, -8/25⟩) := by
  constructor
  · intro k g v G a denom s3 s4 hdenom hz h3 h4
    obtain ⟨numer, hnum, hnums⟩ :=
      bcast2_of_shape CQ.mul (.scalar (CQ.neg CQ.I)) (g.map CQ.conj)
        (g.map CQ.conj).nshape (bshape_none_left _)
    obtain ⟨rr, hrr, hrrs⟩ := bcast2_of_shape CQ.div numer denom s3
      (by rw [hnums, nshape_map]; exact h3)
    obtain ⟨b, hb, hbs⟩ := bcast2_of_shape CQ.mul rr a s4 (by rw [hrrs]; exact h4)
    refine ⟨b, rr, ?_, hrrs, hbs, ?_, ?_, ?_⟩
    · simp only [calcqo103_spectral_pump, hdenom, hz, Bool.false_eq_true, if_false,
        hnum, Option.some_bind, hrr, hb]
    · intro i hi
      unfold denomOf at hdenom
      simp only [Option.bind_eq_some] at hdenom
      obtain ⟨t1, ht1, t2, ht2, ht3⟩ := hdenom
      have hop3 := bcast2_operand _ _ _ _ ht3 i (Or.inl hi)
      have hop2 := bcast2_operand _ _ _ _ ht2 i hop3.1
      rw [bcast2_bget _ _ _ _ ht3 i (Or.inl hi),
        bcast2_bget _ _ _ _ ht2 i hop3.1,
        bcast2_bget _ _ _ _ ht1 i hop2.1]
      rfl
    · intro i hi
      have hoprr := bcast2_operand _ _ _ _ hrr i (Or.inl hi)
      have hopnum := bcast2_operand _ _ _ _ hnum i hoprr.1
      have hg : i < g.vlen ∨ g.vlen = 1 := by
        rw [vlen_map] at hopnum
        exact hopnum.2
      rw [bcast2_bget _ _ _ _ hrr i (Or.inl hi),
        bcast2_bget _ _ _ _ hnum i hoprr.1,
        bget_map CQ.conj g i hg]
      rfl
    · intro i hi
      rw [bcast2_bget _ _ _ _ hb i (Or.inl hi)]
  · norm_num [calcqo103_spectral_pump, denomOf, bcast2, NArr.anyZero, NArr.map, CQ.mul,
      CQ.add, CQ.div, CQ.conj, CQ.neg, CQ.I, CQ.ofRat, CQ.zero, Option.some_bind]

/-- Witness for C2: the general clause applied at the scalar spec inputs. -/
theorem calcqo103_spectral_pump_spec_witness :
    ∃ (pump_ring ring_response : NArr CQ),
      calcqo103_spectral_pump (.scalar (CQ.ofRat 1)) (.scalar (CQ.ofRat 2))
        (.scalar (CQ.ofRat 3)) (.scalar (CQ.ofRat 4)) (.scalar (CQ.ofRat 5)) =
        .ok (pump_ring, ring_response) ∧
      ring_response.nshape = none ∧
      pump_ring.nshape = none ∧
      (∀ i, i < (NArr.scalar (⟨4, -3⟩ : CQ)).vlen →
        (NArr.scalar (⟨4, -3⟩ : CQ)).bget i =
          CQ.add (CQ.mul (CQ.mul (CQ.neg CQ.I) ((NArr.scalar (CQ.ofRat 1)).bget i))
            ((NArr.scalar (CQ.ofRat 3)).bget i)) ((NArr.scalar (CQ.ofRat 4)).bget i)) ∧
      (∀ i, i < ring_response.vlen →
        ring_response.bget i =
          CQ.div (CQ.mul (CQ.neg CQ.I) (CQ.conj ((NArr.scalar (CQ.ofRat 2)).bget i)))
            ((NArr.scalar (⟨4, -3⟩ : CQ)).bget i)) ∧
      (∀ i, i < pump_ring.vlen →
        pump_ring.bget i =
          CQ.mul (ring_response.bget i) ((NArr.scalar (CQ.ofRat 5)).bget i)) :=
  calcqo103_spectral_pump_spec.1 (.scalar (CQ.ofRat 1)) (.scalar (CQ.ofRat 2))
    (.scalar (CQ.ofRat 3)) (.scalar (CQ.ofRat 4)) (.scalar (CQ.ofRat 5))
    (.scalar ⟨4, -3⟩) none none
    (by norm_num [denomOf, bcast2, CQ.mul, CQ.add, CQ.neg, CQ.I, CQ.ofRat,
      Option.some_bind])
    (by norm_num [NArr.anyZero, CQ.zero])
    (by simp [NArr.nshape, nshape_map, bshape])
    (by simp [NArr.nshape, bshape])

/-- C3: given that the denominator `d = -i*k*v + G` is defined,
`calcqo103_spectral_pump` fails with the zero-denominator `ValueError`
exactly when some element of `d` is zero; the check precedes the division
and no output is produced on that path (the error is returned instead of
a result pair). -/
theorem calcqo103_divzero_iff
    (k g v G a denom : NArr CQ) (hdenom : denomOf k v G = some denom) :
    calcqo103_spectral_pump k g v G a = .error .divisionByZero ↔
      denom.anyZero = true := by
  simp only [calcqo103_spectral_pump, hdenom]
  cases hz : denom.anyZero with
  | true => simp
  | false =>
    simp only [Bool.false_eq_true, if_false]
    constructor
    · intro h
      exfalso
      revert h
      cases hopt : (bcast2 CQ.mul (NArr.scalar (CQ.neg CQ.I)) (g.map CQ.conj)).bind
          (fun numer => bcast2 CQ.div numer denom) with
      | none => simp [hopt]
      | some rr =>
        cases hb : bcast2 CQ.mul rr a with
        | none => simp [hopt, hb]
        | some b => simp [hopt, hb]
    · intro h
      exact h.elim

/-- Witness for C3: all-zero scalar inputs make the denominator zero and
the calculator fails with the zero-denominator error. -/
theorem calcqo103_divzero_iff_witness :
    calcqo103_spectral_pump (.scalar CQ.zero) (.scalar CQ.zero) (.scalar CQ.zero)
      (.scalar CQ.zero) (.scalar CQ.zero) = .error .divisionByZero :=
  (calcqo103_divzero_iff (.scalar CQ.zero) (.scalar CQ.zero) (.scalar CQ.zero)
    (.scalar CQ.zero) (.scalar CQ.zero) (.scalar CQ.zero)
    (by norm_num [denomOf, bcast2, CQ.mul, CQ.add, CQ.neg, CQ.I, CQ.zero,
      Option.some_bind])).mpr
    (by norm_num [NArr.anyZero, CQ.zero])

/-! ## Claim C9: the template calculator -/

/-- C9: for every input `x`, `calcID_template` returns `[finC, x*pi]` where
`finC` is `tan(x*pi)` when `x > 0.5`, `sin(x*pi)` when `x < 0.5`, and
`log(x*pi)` when `x = 0.5` (for any interpretations of the transcendental
functions and of pi). -/
theorem calcID_template_spec (tan sin log : ℚ → ℚ) (pi x : ℚ) :
    (x > 1/2 → calcID_template tan sin log pi x = [tan (x * pi), x * pi]) ∧
    (x < 1/2 → calcID_template tan sin log pi x = [sin (x * pi), x * pi]) ∧
    (x = 1/2 → calcID_template tan sin log pi x = [log (x * pi), x * pi]) := by
  refine ⟨fun h => ?_, fun h => ?_, fun h => ?_⟩
  · simp only [calcID_template]
    rw [if_pos h]
  · simp only [calcID_template]
    rw [if_neg (by linarith : ¬ x > 1/2), if_pos h]
  · subst h
    simp only [calcID_template]
    rw [if_neg (by norm_num : ¬ (1/2 : ℚ) > 1/2), if_neg (by norm_num : ¬ (1/2 : ℚ) < 1/2)]

/-- Witness for C9: the tangent branch at `x = 1`. -/
theorem calcID_template_spec_witness :
    calcID_template id id id 3 1 = [id ((1 : ℚ) * 3), (1 : ℚ) * 3] :=
  (calcID_template_spec id id id 3 1).1 (by norm_num)

/-! ## Claims C6 and C8: the spectral-pump validator -/

/-- The advisory branch of `valArrayTests` is dead code: the complex kind
is in the numeric-kinds list, so the nested complex check (inside the
non-numeric branch) can never fire. -/
theorem valArrayTests_wrn_false (a : NDArr) (name : PName103) (en wc : Bool) :
    (valArrayTests a name en wc).wrn = false ∧
      (valArrayTests a name en wc).wMsg = [] := by
  unfold valArrayTests
  by_cases h1 : a.kind ∉ numericKinds
  · have hc : ¬(a.kind = DKind.c ∧ wc = true) := by
      rintro ⟨hk, -⟩
      exact h1 (by rw [hk]; decide)
    simp only [if_pos h1, if_neg hc]
    split_ifs <;> exact ⟨rfl, rfl⟩
  · simp only [if_neg h1]
    split_ifs <;> exact ⟨rfl, rfl⟩

/-- The checking phase of the spectral-pump validator never sets the
advisory flag, whatever the inputs. -/
theorem checks103_wrn_false (w c v d p : Option NDArr) :
    (checks103 w c v d p).wrn = false ∧ (checks103 w c v d p).wMsg = [] := by
  unfold checks103
  cases p with
  | some a => exact valArrayTests_wrn_false a .pumpInput true false
  | none =>
    cases d with
    | some a => exact valArrayTests_wrn_false a .damping true true
    | none =>
      cases v with
      | some a => exact valArrayTests_wrn_false a .velocities true true
      | none =>
        cases c with
        | some a => exact valArrayTests_wrn_false a .couplings true false
        | none =>
          cases w with
          | some a => exact valArrayTests_wrn_false a .wavevec false true
          | none => exact ⟨rfl, rfl⟩

/-- C8 (code bug): complex input is never flagged by the spectral-pump
array test.  The complex check is nested inside the non-numeric branch
while kind c is itself numeric, so the advisory flag and message are
always empty, whatever the configuration; a well-formed complex array
produces no violation at all, and complex wavevec passed to
`validateParameters` returns without raising. -/
theorem valArrayTests_complex_never_flagged :
    (∀ (a : NDArr) (name : PName103) (en wc : Bool),
      (valArrayTests a name en wc).wrn = false ∧
        (valArrayTests a name en wc).wMsg = []) ∧
    valArrayTests ⟨.c, 1, [⟨1, 1⟩]⟩ .wavevec false true = ⟨false, [], false, []⟩ ∧
    validateParameters103 (some ⟨.c, 1, [⟨1, 1⟩]⟩) none none none none = .ok := by
  refine ⟨valArrayTests_wrn_false, ?_, ?_⟩ <;> decide

/-- C6 (code bug): the spectral-pump validator overwrites the flag tuple at
each parameter instead of accumulating.  A two-dimensional wavevec alone
raises `ValueError` with its violation, but supplying a perfectly valid
pump_input in the same call erases the wavevec violation and the call
returns without raising. -/
theorem validateParameters103_overwrites :
    validateParameters103 (some ⟨.f, 2, [⟨1, 0⟩]⟩) none none none none =
      .valueError [.multiDim .wavevec] ∧
    validateParameters103 (some ⟨.f, 2, [⟨1, 0⟩]⟩) none none none
      (some ⟨.f, 1, [⟨1, 0⟩]⟩) = .ok := by
  constructor <;> decide

/-! ## Claim C7: raise classification of the validators -/

/-- The ring-damping checking phase, when it completes, never sets the
advisory flag (the validator has no warning checks). -/
theorem checks102_wrn_false (c v : Option PyVal) (f : VFlags V102)
    (h : checks102 c v = .ok f) : f.wrn = false ∧ f.wMsg = [] := by
  simp only [checks102] at h
  split at h
  · exact absurd h (by simp)
  · exact absurd h (by simp)
  · obtain rfl := Except.ok.inj h
    exact ⟨rfl, rfl⟩
  · obtain rfl := Except.ok.inj h
    exact ⟨rfl, rfl⟩

/-- C7 counterexample: couplings `[-1, 2]` makes the negative-value check
record a fatal violation, but with velocities `[]` (falsy, never converted)
the broadcast check's failure handler raises an uncaught AttributeError,
so the call does not fail with the value-error classification. -/
theorem validators_classification_counterexample :
    (phaseParam (some (.plist [-1, 2])) V102.negCouplings).2 =
      [V102.negCouplings [0]] ∧
    validateParameters102 (some (.plist [-1, 2])) (some (.plist [])) =
      .attributeError := by
  constructor <;> decide

/-- C7 amended: on every validator call whose checking phase completes
without an escaping exception (always, for the detuning and spectral-pump
validators; hypothesis `checks102 c v = .ok f` for the ring-damping one),
a fatal violation yields a `ValueError` whose message contains the full
fatal and advisory messages, and advisory-only violations yield a
`RuntimeWarning`. -/
theorem validators_classification :
    (∀ (p1 p2 s i : Option ℚ),
      ((checks101 p1 p2 s i).err = true →
        ∃ m, validateParameters101 p1 p2 s i = .valueError m ∧
          List.Sublist (checks101 p1 p2 s i).eMsg m ∧ List.Sublist (checks101 p1 p2 s i).wMsg m) ∧
      ((checks101 p1 p2 s i).err = false → (checks101 p1 p2 s i).wrn = true →
        ∃ m, validateParameters101 p1 p2 s i = .runtimeWarning m)) ∧
    (∀ (c v : Option PyVal) (f : VFlags V102), checks102 c v = .ok f →
      (f.err = true → ∃ m, validateParameters102 c v = .valueError m ∧
        List.Sublist f.eMsg m ∧ List.Sublist f.wMsg m) ∧
      (f.err = false → f.wrn = true →
        ∃ m, validateParameters102 c v = .runtimeWarning m)) ∧
    (∀ (w c v d p : Option NDArr),
      ((checks103 w c v d p).err = true →
        ∃ m, validateParameters103 w c v d p = .valueError m ∧
          List.Sublist (checks103 w c v d p).eMsg m ∧ List.Sublist (checks103 w c v d p).wMsg m) ∧
      ((checks103 w c v d p).err = false → (checks103 w c v d p).wrn = true →
        ∃ m, validateParameters103 w c v d p = .runtimeWarning m)) := by
  refine ⟨?_, ?_, ?_⟩
  · intro p1 p2 s i
    have hw : (checks101 p1 p2 s i).wrn = false := rfl
    have hwm : (checks101 p1 p2 s i).wMsg = [] := rfl
    constructor
    · intro he
      refine ⟨(checks101 p1 p2 s i).eMsg, ?_, List.Sublist.refl _,
        by rw [hwm]; exact List.nil_sublist _⟩
      unfold validateParameters101 dispatch101
      rw [he, hw]
      simp
    · intro _ hwrn
      rw [hw] at hwrn
      exact absurd hwrn (by decide)
  · intro c v f hok
    have hw := checks102_wrn_false c v f hok
    constructor
    · intro he
      refine ⟨f.eMsg, ?_, List.Sublist.refl _,
        by rw [hw.2]; exact List.nil_sublist _⟩
      unfold validateParameters102
      rw [hok]
      show dispatch102 f = .valueError f.eMsg
      unfold dispatch102
      rw [he, hw.1]
      simp
    · intro _ hwrn
      rw [hw.1] at hwrn
      exact absurd hwrn (by decide)
  · intro w c v d p
    have hw := checks103_wrn_false w c v d p
    constructor
    · intro he
      refine ⟨(checks103 w c v d p).eMsg, ?_, List.Sublist.refl _,
        by rw [hw.2]; exact List.nil_sublist _⟩
      simp only [validateParameters103]
      rw [he, hw.1]
      simp
    · intro _ hwrn
      rw [hw.1] at hwrn
      exact absurd hwrn (by decide)

/-- Witness for C7: a negative pump1 is a fatal violation and the detuning
validator fails with a `ValueError` carrying it. -/
theorem validators_classification_witness :
    ∃ m, validateParameters101 (some (-1)) none none none = .valueError m ∧
      List.Sublist (checks101 (some (-1)) none none none).eMsg m ∧
      List.Sublist (checks101 (some (-1)) none none none).wMsg m :=
  (validators_classification.1 (some (-1)) none none none).1 (by decide)

/-! ## Claim C10: falsy parameters in the ring-damping validator -/

/-- C10 counterexample: couplings and velocities both supplied as empty
lists: neither records any violation (both are skipped as falsy), yet the
call raises an uncaught TypeError from the broadcast try-check (raw
`[] * []`) instead of returning. -/
theorem ring_validate_falsy_counterexample :
    (phaseParam (some (.plist [])) V102.negCouplings).2 = [] ∧
    (phaseParam (some (.plist [])) V102.negVelocities).2 = [] ∧
    validateParameters102 (some (.plist [])) (some (.plist [])) = .typeError ∧
    validateParameters102 (some (.plist [])) (some (.plist [])) ≠ .ok := by
  refine ⟨by decide, by decide, by decide, by decide⟩

/-- The ring-damping validator returns normally when both parameter checks
record nothing and the broadcast try-check passes. -/
theorem v102_ok_of (c v : Option PyVal)
    (hc : (phaseParam c V102.negCouplings).2 = [])
    (hv : (phaseParam v V102.negVelocities).2 = [])
    (hs : shapePhase (phaseParam c V102.negCouplings).1
        (phaseParam v V102.negVelocities).1 = .skip ∨
      shapePhase (phaseParam c V102.negCouplings).1
        (phaseParam v V102.negVelocities).1 = .okS) :
    validateParameters102 c v = .ok := by
  simp only [validateParameters102, checks102]
  rcases hcp : phaseParam c V102.negCouplings with ⟨cs, ce⟩
  rcases hvp : phaseParam v V102.negVelocities with ⟨vs, ve⟩
  rw [hcp] at hc hs
  rw [hvp] at hv hs
  simp only at hc hv hs
  subst hc
  subst hv
  rcases hs with hs | hs <;> rw [hs] <;> rfl

/-- C10 amended: a present-but-falsy parameter (scalar 0, 0.0, or an empty
sequence) is skipped by the non-negativity element check exactly as if
absent (nothing recorded, the variable stays raw), and such a call returns
without raising whenever the other parameter's check also records nothing
and the broadcast try-check on the raw value passes; when instead the raw
Python product is ill-typed (empty list times empty list or times a float
scalar), an uncaught TypeError escapes, as the counterexample shows. -/
theorem ring_validate_falsy_amended :
    (∀ (x : PyVal) (mk : List Nat → V102), x.truthy = false →
      phaseParam (some x) mk = (.raw x, []) ∧ phaseParam none mk = (.noneS, [])) ∧
    (∀ (c : PyVal) (v : Option PyVal), c.truthy = false →
      (phaseParam v V102.negVelocities).2 = [] →
      (shapePhase (.raw c) (phaseParam v V102.negVelocities).1 = .skip ∨
        shapePhase (.raw c) (phaseParam v V102.negVelocities).1 = .okS) →
      validateParameters102 (some c) v = .ok) ∧
    (∀ (v : PyVal) (c : Option PyVal), v.truthy = false →
      (phaseParam c V102.negCouplings).2 = [] →
      (shapePhase (phaseParam c V102.negCouplings).1 (.raw v) = .skip ∨
        shapePhase (phaseParam c V102.negCouplings).1 (.raw v) = .okS) →
      validateParameters102 c (some v) = .ok) := by
  have hraw : ∀ (x : PyVal) (mk : List Nat → V102), x.truthy = false →
      phaseParam (some x) mk = (.raw x, []) := by
    intro x mk hx
    simp [phaseParam, hx]
  refine ⟨fun x mk hx => ⟨hraw x mk hx, rfl⟩, ?_, ?_⟩
  · intro c v hc hv hs
    refine v102_ok_of (some c) v ?_ hv ?_
    · rw [hraw c V102.negCouplings hc]
    · rw [hraw c V102.negCouplings hc]
      exact hs
  · intro v c hv hc hs
    refine v102_ok_of c (some v) hc ?_ ?_
    · rw [hraw v V102.negVelocities hv]
    · rw [hraw v V102.negVelocities hv]
      exact hs

/-- Witness for C10: couplings supplied as the falsy scalar `0.0` with
valid velocities `[3, 4]`: the validator returns without raising. -/
theorem ring_validate_falsy_witness :
    validateParameters102 (some (.pfloat 0)) (some (.plist [3, 4])) = .ok :=
  ring_validate_falsy_amended.2.1 (.pfloat 0) (some (.plist [3, 4]))
    (by decide) (by decide) (Or.inr (by decide))
